import Mathlib

set_option autoImplicit false

/-!
Shallow embedding of the knowledge-resolution and build-orchestration engine
of `aggregate/underwriter.py` (class `Underwriter`), and proofs about the
claims of its specification.

The embedding follows the source file:

* the knowledge store (`_knowledge` dataframe) becomes an association list
  keyed by `(kind, name)` with record columns `spec` and `program`;
* the two branches of `__getitem__` become `get_by_name` (string item) and
  `get_exact` (tuple item);
* `safe_lookup` (the reference-resolution callback of the parser) is embedded over
  an explicit heap of Python objects, so that the shallow `dict.copy()` it
  performs, together with aliasing and in-place mutation, are expressible;
* `interpret_program`, `factory`, `write` and `build` are embedded over a
  value-level specification type; the external collaborators (preprocessor,
  tokenizer/parser, the `update` operation of the objects, `recommend_bucket`,
  `best_bucket`, `round_bucket`) are parameters.
-/

/- ----------------------------------------------------------------------- -/
/- Error taxonomy (spec section 7).                                        -/
/- ----------------------------------------------------------------------- -/

/-- Errors raised by the store lookups and by `safe_lookup`. In the source
these are `KeyError` / `ValueError`; the constructors follow the taxonomy
names of the spec. -/
inductive UwErr where
  | notFound (kind name : String)
  | notFoundName (name : String)
  | ambiguous (name : String) (count : Nat)
  | kindMismatch (name foundKind expectedKind : String)
  | malformedReference (ref : String)
  deriving DecidableEq

/-- Structured parse failure surfaced by the external parser: either a token
error carrying type, value and character index of the unexpected token, or a
plain message (`e.args[0]` a string in the source). -/
inductive ParseErr where
  | tokenErr (ttype tvalue : String) (index : Nat)
  | msgErr (msg : String)
  deriving DecidableEq

/-- Failure of an external `update` call. `zeroDiv` and `attr` are the two
exception classes `build` catches for Aggregate objects
(`ZeroDivisionError`, `AttributeError`); `otherErr` stands for every other
exception class, which nothing in `build` catches. -/
inductive UpdErr where
  | zeroDiv
  | attr
  | otherErr (msg : String)
  deriving DecidableEq

/- ----------------------------------------------------------------------- -/
/- The knowledge store.                                                    -/
/- ----------------------------------------------------------------------- -/

/-- One stored knowledge record: the columns `spec` and `program` of the
`_knowledge` dataframe of the underwriter. The payload type `σ` of the `spec`
column is a parameter: the heap model stores a heap address, the value model
stores a `Spec`. -/
structure KRecord (σ : Type) where
  spec : σ
  program : String
  deriving DecidableEq

/-- The knowledge store: the rows of the `_knowledge` dataframe, indexed by
`(kind, name)`, in insertion order. -/
abbrev Knowledge (σ : Type) := List ((String × String) × KRecord σ)

/-- Exact lookup, `self[(kind, name)]` (tuple branch of `__getitem__`,
underwriter.py lines 160-181): the rows whose index equals `(kind, name)`;
`KeyError` when there is none, and the same not-unique `KeyError` as the
string branch when there are several (unreachable when the store was built
by `insertRec`). -/
def get_exact {σ : Type} (store : Knowledge σ) (kind name : String) :
    Except UwErr ((String × String) × KRecord σ) :=
  match store.filter (fun e => e.1.1 == kind && e.1.2 == name) with
  | [r] => .ok r
  | [] => .error (.notFound kind name)
  | rs => .error (.ambiguous name rs.length)

/-- Bare-name lookup, `self[name]` (string branch of `__getitem__`,
`xs(item, level=1)`): the rows whose name matches, across all kinds;
`KeyError` if none, `KeyError` ("no unique object found") if several. -/
def get_by_name {σ : Type} (store : Knowledge σ) (name : String) :
    Except UwErr ((String × String) × KRecord σ) :=
  match store.filter (fun e => e.1.2 == name) with
  | [r] => .ok r
  | [] => .error (.notFoundName name)
  | rs => .error (.ambiguous name rs.length)

/-- Insertion, `self._knowledge.loc[(kind, name), :] = [spec, program]`:
overwrite in place when the identifier already exists, else append. -/
def insertRec {σ : Type} (store : Knowledge σ) (kind name : String)
    (r : KRecord σ) : Knowledge σ :=
  if store.any (fun e => e.1.1 == kind && e.1.2 == name) then
    store.map (fun e => if e.1.1 == kind && e.1.2 == name then (e.1, r) else e)
  else store ++ [((kind, name), r)]

/- ----------------------------------------------------------------------- -/
/- Heap model of Python objects, for the copy semantics of safe_lookup.  -/
/- ----------------------------------------------------------------------- -/

/-- A Python value slot: a primitive, or a reference to a heap object.
Mutable containers live on the heap so that sharing and in-place mutation
are expressible. -/
inductive PyVal where
  | num (q : ℚ)
  | str (s : String)
  | ref (a : Nat)
  deriving DecidableEq

/-- A heap object: a dict (attribute map) or a list. -/
inductive PyObj where
  | dict (entries : List (String × PyVal))
  | arr (items : List PyVal)
  deriving DecidableEq

/-- The heap: finitely many addressed objects. -/
abbrev Heap := List (Nat × PyObj)

/-- Read the object at an address. -/
def heapLookup (h : Heap) (a : Nat) : Option PyObj :=
  match h with
  | [] => none
  | (b, o) :: t => if a = b then some o else heapLookup t a

/-- An address not used by any object of the heap. -/
def heapFresh (h : Heap) : Nat := (h.map Prod.fst).foldr max 0 + 1

/-- Rebind key `k` of a dict object to `v` (Python `d[k] = v`): replace the
first binding of `k`, else append one. -/
def setEntries (es : List (String × PyVal)) (k : String) (v : PyVal) :
    List (String × PyVal) :=
  if es.any (fun p => p.1 == k) then
    es.map (fun p => if p.1 == k then (p.1, v) else p)
  else es ++ [(k, v)]

/-- In-place `d[k] = v` on the object a value points at (no-op on a list). -/
def dictSetObj (o : PyObj) (k : String) (v : PyVal) : PyObj :=
  match o with
  | .dict es => .dict (setEntries es k v)
  | .arr items => .arr items

/-- In-place `xs[i] = v` on a list object (no-op on a dict). -/
def arrSetObj (o : PyObj) (i : Nat) (v : PyVal) : PyObj :=
  match o with
  | .dict es => .dict es
  | .arr items => .arr (items.set i v)

/-- Mutate the dict at address `a` in place: `heap[a][k] = v`. -/
def dictSet : Heap → Nat → String → PyVal → Heap
  | [], _, _, _ => []
  | (b, o) :: t, a, k, v =>
    if b = a then (b, dictSetObj o k v) :: dictSet t a k v
    else (b, o) :: dictSet t a k v

/-- Mutate the list at address `a` in place: `heap[a][i] = v`. -/
def arrSet : Heap → Nat → Nat → PyVal → Heap
  | [], _, _, _ => []
  | (b, o) :: t, a, i, v =>
    if b = a then (b, arrSetObj o i v) :: arrSet t a i v
    else (b, o) :: arrSet t a i v

/-- Split a character list on a separator character. -/
def splitChar (c : Char) : List Char → List Char → List (List Char)
  | [], acc => [acc.reverse]
  | x :: xs, acc =>
    if x = c then acc.reverse :: splitChar c xs []
    else splitChar c xs (x :: acc)

/-- `buildinid.split` on the dot, written by structural recursion over the
characters so that it evaluates inside the kernel. -/
def splitDot (s : String) : List String :=
  (splitChar '.' s.data []).map (fun l => String.mk l)

/-- `Underwriter.safe_lookup` (underwriter.py lines 428-452), the callback
the external parser uses to resolve a `kind.name` reference. Splits the
reference (the unpacking `kind, name = buildinid.split` fails unless there
are exactly two parts), performs the exact `(kind, name)` lookup of
`__getitem__`, re-raises its `KeyError` (`NotFound`), keeps the dead
`found_kind != kind` double check, and finally returns `spec.copy()` — a
SHALLOW copy: a fresh dict object whose entries still reference the same
nested objects as the stored one. -/
def safe_lookup (store : Knowledge Nat) (h : Heap) (buildinid : String) :
    Except UwErr (Nat × Heap) :=
  match splitDot buildinid with
  | [kind, name] =>
    match get_exact store kind name with
    | .error _ => .error (.notFound kind name)
    | .ok ((found_kind, _), rec) =>
      if found_kind ≠ kind then .error (.kindMismatch name found_kind kind)
      else
        match heapLookup h rec.spec with
        | some o =>
          let a := heapFresh h
          .ok (a, (a, o) :: h)
        | none => .error (.notFound kind name)
  | _ => .error (.malformedReference buildinid)

/- ----------------------------------------------------------------------- -/
/- Value-level specifications, answers, the object factory.                -/
/- ----------------------------------------------------------------------- -/

/-- A specification attribute value as produced by the external parser:
a number, a string, a numeric array, or — for the `spec` key of a portfolio —
the embedded list of `(kind, name, spec)` triples of its constituent
aggregates. -/
inductive Value where
  | num (q : ℚ)
  | str (s : String)
  | nums (qs : List ℚ)
  | triples (ts : List (String × String × List (String × Value)))

/-- A specification: the open attribute map of one parsed statement. -/
abbrev Spec := List (String × Value)

/-- Lookup of an attribute in a specification. -/
def specLookup : Spec → String → Option Value
  | [], _ => none
  | (k, v) :: t, key => if k == key then some v else specLookup t key

/-- A constructed domain object, as pure data: which external constructor
ran and the arguments it received. The numerics of the domain objects are
external collaborators. -/
inductive Constructed where
  | aggregate (spec : Spec) (program : String)
  | severity (spec : Spec) (program : String)
  | portfolio (name : String) (aggList : List Spec) (program : String)
  | distortion (spec : Spec) (program : String)
  | exprOther (descr : String)

/-- The `Answer` record produced per statement (`InterpretationResult`):
kind, name, spec, program, and the optional constructed object. -/
structure Answer where
  kind : String
  name : String
  spec : Spec
  program : String
  object : Option Constructed

/-- The log messages of the engine that the claims mention. -/
inductive LogMsg where
  | objOverwritten
  | mixedSevNotCreated
  | buildNoOutput
  deriving DecidableEq

/-- True when the value equals the number 1 (Python `spec["sev_wt"] != 1`
is the negation). -/
def isOne : Value → Bool
  | .num q => q == 1
  | _ => false

/-- The list `[k for i, j, k in spec["spec"]]` of the portfolio branch of
`factory`: the specs of the embedded triples, kinds and names dropped. The
parser always stores the triple list under the key `spec` of a portfolio
specification; the default branch is for totality only. -/
def portAggList (spec : Spec) : List Spec :=
  match specLookup spec "spec" with
  | some (.triples ts) => ts.map (fun t => t.2.2)
  | _ => []

/-- `Underwriter.factory` (underwriter.py lines 198-241). Branches on the
kind string; a severity whose `sev_wt` attribute is present and not 1 is
declined with a warning (`obj = None`); an unrecognized kind CONSTRUCTS
the ValueError reporting an unbuildable kind but — as in the source, where
the raise statement is missing — discards it and returns the answer
unchanged.
The function is total: no branch raises. -/
def factory (answer : Answer) : Answer × List LogMsg :=
  let warn0 : List LogMsg :=
    if answer.object.isSome then [.objOverwritten] else []
  if answer.kind = "agg" then
    ({ answer with object := some (.aggregate answer.spec answer.program) }, warn0)
  else if answer.kind = "port" then
    ({ answer with
        object := some (.portfolio answer.name (portAggList answer.spec) answer.program) },
      warn0)
  else if answer.kind = "sev" then
    match specLookup answer.spec "sev_wt" with
    | some w =>
      if isOne w then
        ({ answer with object := some (.severity answer.spec answer.program) }, warn0)
      else
        ({ answer with object := none }, warn0 ++ [.mixedSevNotCreated])
    | none =>
      ({ answer with object := some (.severity answer.spec answer.program) }, warn0)
  else if answer.kind = "distortion" then
    ({ answer with object := some (.distortion answer.spec answer.program) }, warn0)
  else
    let _unraised := UwErr.notFound answer.kind answer.name
    (answer, warn0)

/- ----------------------------------------------------------------------- -/
/- The interpreter.                                                        -/
/- ----------------------------------------------------------------------- -/

/-- The outcome of `interpret_program`: the knowledge store after the run
(mutations persist even when a statement fails), the answers of the
successfully parsed statements, the trace of statements that were handed to
the parser, and the error of the failing statement if any. -/
structure InterpOut where
  store : Knowledge Spec
  answers : List Answer
  parsed : List String
  err : Option ParseErr

/-- `Underwriter.interpret_program` (underwriter.py lines 350-394) after
preprocessing: parse the statements in order; on success insert into the
knowledge store and append the answer; on the first failure stop and
re-raise (fail-fast), keeping the inserts already made. -/
def interpret_program (parse : String → Except ParseErr (String × String × Spec))
    (store : Knowledge Spec) : List String → InterpOut
  | [] => ⟨store, [], [], none⟩
  | line :: rest =>
    match parse line with
    | .error e => ⟨store, [], [line], some e⟩
    | .ok (kind, name, spec) =>
      let store1 := insertRec store kind name ⟨spec, line⟩
      let out := interpret_program parse store1 rest
      ⟨out.store, ⟨kind, name, spec, line, none⟩ :: out.answers,
        line :: out.parsed, out.err⟩

/- ----------------------------------------------------------------------- -/
/- The build orchestrator.                                                 -/
/- ----------------------------------------------------------------------- -/

/-- Oracles for the external collaborators invoked around the update step:
the outcome of the update call of an object (keyed by the object name and the
resolved `log2` and `bs` arguments), `recommend_bucket` composed with the
`round_bucket` utility, `best_bucket`, and the square root used by the
normal-approximation count estimate (the rationals of the embedding have no
square root of their own). -/
structure Externals where
  upd : String → Int → ℚ → Except UpdErr Unit
  recommendBucket : String → Int → ℚ
  bestBucket : String → Int → ℚ
  roundBucket : ℚ → ℚ
  sqrtQ : ℚ → ℚ

/-- What happened to one answer in the update loop of `build`. -/
inductive UpdOutcome where
  | notCreated
  | updated
  | caughtZeroDiv
  | caughtAttr
  | skipped
  | unexpected
  deriving DecidableEq

/-- Per-answer record of the update loop of `build`: the `log2_` and `bs_`
actually used and the outcome. -/
structure UpdRec where
  kind : String
  name : String
  log2Used : Int
  bsUsed : ℚ
  outcome : UpdOutcome
  deriving DecidableEq

/-- String attribute of a specification (`d["sev_name"]`, `d["freq_name"]`).
The external parser always populates these for an aggregate; the `none`
default is for totality. -/
def getStr (d : Spec) (k : String) : Option String :=
  match specLookup d k with
  | some (.str s) => some s
  | _ => none

/-- Numeric attribute of a specification (`d["exp_en"]`). -/
def getQ (d : Spec) (k : String) : ℚ :=
  match specLookup d k with
  | some (.num q) => q
  | _ => 0

/-- Numeric-array attribute of a specification (`d["sev_xs"]`, `d["freq_a"]`). -/
def getNums (d : Spec) (k : String) : List ℚ :=
  match specLookup d k with
  | some (.nums l) => l
  | _ => []

/-- `np.max` over a numeric array (the arrays the code takes maxima of are
nonempty and nonnegative). -/
def maxQ (l : List ℚ) : ℚ := l.foldr max 0

/-- Number of bits of `n`, by structural recursion on a fuel so that it
evaluates inside the kernel; `bitLenAux fuel m` is the bit length of `m`
whenever `m ≤ fuel`. -/
def bitLenAux : Nat → Nat → Nat
  | 0, _ => 0
  | _ + 1, 0 => 0
  | fuel + 1, m + 1 => bitLenAux fuel ((m + 1) / 2) + 1

/-- Number of binary digits of `n` (0 has bit length 0). -/
def bitLen (n : Nat) : Nat := bitLenAux n n

/-- Length of the Python string `bin(n)`: the two characters `0b` plus the
binary digits, where `bin(0)` is three characters long. -/
def pyBinLen (n : Nat) : Nat := if n = 0 then 3 else bitLen n + 2

/-- The estimated upper bound `max_loss` on aggregate loss, by frequency
shape (underwriter.py `build`, lines 509-515): fixed counts multiply the
largest severity outcome by the expected count; empirical counts by the
largest frequency support point; anything else uses the normal
approximation `exp_en * (1 + 3 * exp_en ** 0.5)` on the count. -/
def maxLossEstimate (ex : Externals) (d : Spec) : ℚ :=
  if getStr d "freq_name" = some "fixed" then
    maxQ (getNums d "sev_xs") * getQ d "exp_en"
  else if getStr d "freq_name" = some "empirical" then
    maxQ (getNums d "sev_xs") * maxQ (getNums d "freq_a")
  else
    maxQ (getNums d "sev_xs") * getQ d "exp_en" * (1 + 3 * ex.sqrtQ (getQ d "exp_en"))

/-- The `(log2_, bs_)` pair `build` resolves for an Aggregate answer
(underwriter.py lines 505-529). Discrete mode (`dhistogram` severity and no
caller `log2`): `bs_ = 1` and `log2_ = len(bin(int(max_loss))) - 1`, where
`int` truncates (the estimate is nonnegative here, so truncation is the
floor). Normal mode: `log2_` from the caller or the engine default, `bs_`
from the caller or `round_bucket(recommend_bucket(log2_))`. -/
def aggParams (ex : Externals) (dfltLog2 log2 : Int) (bs : ℚ)
    (name : String) (d : Spec) : Int × ℚ :=
  if getStr d "sev_name" = some "dhistogram" ∧ log2 = 0 then
    let m : Nat := (⌊maxLossEstimate ex d⌋).toNat
    (((pyBinLen m - 1 : Nat) : Int), 1)
  else
    let log2_ : Int := if log2 = 0 then dfltLog2 else log2
    let bs_ : ℚ := if bs = 0 then ex.roundBucket (ex.recommendBucket name log2_) else bs
    (log2_, bs_)

/-- The update loop of `Underwriter.build` (underwriter.py lines 498-559),
one branch per shape of `answer.object`, following the order of the
`isinstance` checks in the source. The update of an Aggregate is wrapped in
`try ... except ZeroDivisionError ... except AttributeError`: those two
failures are logged and the loop continues; the update of a Portfolio is NOT
wrapped, so its failure propagates and aborts the loop. Severities and
Distortions are never updated. -/
def buildLoop (ex : Externals) (dfltLog2 : Int) (update : Bool)
    (log2 : Int) (bs : ℚ) : List Answer → Except UpdErr (List UpdRec)
  | [] => .ok []
  | answer :: rest =>
    let step : Except UpdErr UpdRec :=
      match answer.object with
      | none => .ok ⟨answer.kind, answer.name, 0, 0, .notCreated⟩
      | some (.aggregate d _) =>
        if update then
          let p := aggParams ex dfltLog2 log2 bs answer.name d
          match ex.upd answer.name p.1 p.2 with
          | .ok _ => .ok ⟨answer.kind, answer.name, p.1, p.2, .updated⟩
          | .error .zeroDiv => .ok ⟨answer.kind, answer.name, p.1, p.2, .caughtZeroDiv⟩
          | .error .attr => .ok ⟨answer.kind, answer.name, p.1, p.2, .caughtAttr⟩
          | .error e => .error e
        else .ok ⟨answer.kind, answer.name, 0, 0, .skipped⟩
      | some (.severity _ _) => .ok ⟨answer.kind, answer.name, 0, 0, .skipped⟩
      | some (.portfolio _ _ _) =>
        if update then
          let log2_ : Int := if log2 = -1 then 13 else log2
          let bs_ : ℚ := if bs = 0 then ex.bestBucket answer.name log2_ else bs
          match ex.upd answer.name log2_ bs_ with
          | .ok _ => .ok ⟨answer.kind, answer.name, log2_, bs_, .updated⟩
          | .error e => .error e
        else .ok ⟨answer.kind, answer.name, 0, 0, .skipped⟩
      | some (.distortion _ _) => .ok ⟨answer.kind, answer.name, 0, 0, .skipped⟩
      | some (.exprOther _) => .ok ⟨answer.kind, answer.name, 0, 0, .unexpected⟩
    match step with
    | .error e => .error e
    | .ok r =>
      match buildLoop ex dfltLog2 update log2 bs rest with
      | .error e => .error e
      | .ok rs => .ok (r :: rs)

/-- The caller-facing return shape of `build`. -/
inductive BuildReturn where
  | oneObject (o : Constructed)
  | oneAnswer (a : Answer)
  | answers (rv : List Answer)

/-- Result collapsing of `Underwriter.build` (underwriter.py lines
561-582). One result: its object if present, else the answer. Several
results: count answers of kind `port`; when exactly one was found the
source returns the object-or-answer of the LAST loop variable — the
comment `if only one, it must be answer` notwithstanding, this is the last
element of `rv`, not the portfolio. Otherwise the full list. -/
def collapse : List Answer → BuildReturn
  | [a] =>
    match a.object with
    | none => .oneAnswer a
    | some o => .oneObject o
  | rv =>
    if (rv.filter (fun a => a.kind = "port")).length = 1 then
      match rv.getLast? with
      | some a =>
        match a.object with
        | none => .oneAnswer a
        | some o => .oneObject o
      | none => .answers rv
    else .answers rv

/-- `getattr(obj, "update", None) is not None`: Aggregate and Portfolio
objects carry an `update` method, Severity and Distortion objects do not. -/
def hasUpd : Constructed → Bool
  | .aggregate _ _ => true
  | .portfolio _ _ _ => true
  | _ => false

/-- Errors that can escape `write` or `build`: a parse failure or an
uncaught update failure. -/
inductive BuildErr where
  | parseE (e : ParseErr)
  | updE (e : UpdErr)
  deriving DecidableEq

/-- The per-answer body of the program path of `write` (underwriter.py lines
311-324): run `factory`, then — only when `write` was asked to update —
call the `update` of the object when the object exists and has one; an update
failure here is uncaught and aborts `write`. Returns the answers and the
factory logs. -/
def writeLoop (ex : Externals) (update : Bool) (log2 : Int) (bs : ℚ) :
    List Answer → Except BuildErr (List Answer × List LogMsg)
  | [] => .ok ([], [])
  | a0 :: rest =>
    let fa := factory a0
    let step : Except BuildErr Unit :=
      match fa.1.object with
      | some o =>
        if update && hasUpd o then
          match ex.upd fa.1.name log2 bs with
          | .ok _ => .ok ()
          | .error e => .error (.updE e)
        else .ok ()
      | none => .ok ()
    match step with
    | .error e => .error e
    | .ok _ =>
      match writeLoop ex update log2 bs rest with
      | .error e => .error e
      | .ok (as_, lgs) => .ok (fa.1 :: as_, fa.2 ++ lgs)

/-- Outcome of `write`: the store after the run, the produced answers or
the propagated failure, and the logs. -/
structure WriteOut where
  store : Knowledge Spec
  res : Except BuildErr (List Answer)
  logs : List LogMsg

/-- `Underwriter.write` (underwriter.py lines 247-334). Shortcut path: the
program text is a bare name the store knows — construct it (and update it
when asked: the source calls `answer.object.update(...)` directly, which
raises `AttributeError` when the object is absent or has no `update`).
Program path: interpret the text (a parse failure propagates, keeping the
partial inserts), then construct every answer. `pre` is the external
preprocessor `lexer.preprocess`, `parse` the external tokenizer+parser. -/
def write (pre : String → List String)
    (parse : String → Except ParseErr (String × String × Spec))
    (ex : Externals) (store : Knowledge Spec) (program : String)
    (update : Bool) (log2 : Int) (bs : ℚ) : WriteOut :=
  match get_by_name store program with
  | .ok ((kind, name), r) =>
    let fa := factory ⟨kind, name, r.spec, r.program, none⟩
    if update then
      match fa.1.object with
      | some o =>
        if hasUpd o then
          match ex.upd fa.1.name log2 bs with
          | .ok _ => ⟨store, .ok [fa.1], fa.2⟩
          | .error e => ⟨store, .error (.updE e), fa.2⟩
        else ⟨store, .error (.updE .attr), fa.2⟩
      | none => ⟨store, .error (.updE .attr), fa.2⟩
    else ⟨store, .ok [fa.1], fa.2⟩
  | .error _ =>
    let out := interpret_program parse store (pre program)
    match out.err with
    | some e => ⟨out.store, .error (.parseE e), []⟩
    | none =>
      match writeLoop ex update log2 bs out.answers with
      | .error e => ⟨out.store, .error e, []⟩
      | .ok (rv, lgs) => ⟨out.store, .ok rv, lgs⟩

/-- Outcome of `build`: the store, the collapsed return value (`none` when
the program produced no output) or the propagated failure, and the logs. -/
structure BuildOut where
  store : Knowledge Spec
  res : Except BuildErr (Option BuildReturn)
  logs : List LogMsg

/-- `Underwriter.build` (underwriter.py lines 465-582): run `write` with
update off, return `None` with a warning when nothing was produced, then
run the update loop and collapse the results. `dfltLog2` is the configured
`self.log2` of the engine. -/
def build (pre : String → List String)
    (parse : String → Except ParseErr (String × String × Spec))
    (ex : Externals) (dfltLog2 : Int) (store : Knowledge Spec)
    (program : String) (update : Bool) (log2 : Int) (bs : ℚ) : BuildOut :=
  let w := write pre parse ex store program false 0 0
  match w.res with
  | .error e => ⟨w.store, .error e, w.logs⟩
  | .ok rv =>
    if rv.length = 0 then ⟨w.store, .ok none, w.logs ++ [.buildNoOutput]⟩
    else
      match buildLoop ex dfltLog2 update log2 bs rv with
      | .error e => ⟨w.store, .error (.updE e), w.logs⟩
      | .ok _ => ⟨w.store, .ok (some (collapse rv)), w.logs⟩

/-- True on a successful `Except`. -/
def isOkE {ε α : Type} : Except ε α → Bool
  | .ok _ => true
  | .error _ => false

/-- True exactly on a `KindMismatch` failure of `safe_lookup`. -/
def isKindMismatchE : Except UwErr (Nat × Heap) → Bool
  | .error (.kindMismatch _ _ _) => true
  | _ => false

/- ----------------------------------------------------------------------- -/
/- Concrete fixtures used by the witnesses and counterexamples.            -/
/- ----------------------------------------------------------------------- -/

/-- The outcome `build` records for an Aggregate whose update failed with a
caught exception class. -/
def caughtOutcome : UpdErr → UpdOutcome
  | .zeroDiv => .caughtZeroDiv
  | .attr => .caughtAttr
  | .otherErr _ => .unexpected

/-- The rational one half, given by its reduced fraction so that it
evaluates inside the kernel. -/
def half : ℚ := ⟨1, 2, by decide, by decide⟩

/-- A demonstration parser: fails on the statement "bad statement", else
succeeds with a severity named by the line. -/
def demoParse (l : String) : Except ParseErr (String × String × Spec) :=
  if l = "bad statement" then .error (.tokenErr "NAME" "bad" 0)
  else .ok ("sev", l, [])

/-- Demonstration externals whose update always succeeds. -/
def demoExts : Externals :=
  ⟨fun _ _ _ => .ok (), fun _ _ => 1, fun _ _ => 1, fun b => b, fun _ => 0⟩

/-- A store holding one severity record named X whose specification lives
at heap address 2. -/
def c1Store : Knowledge Nat := [(("sev", "X"), ⟨2, "sev X dsev"⟩)]

/-- A heap where the stored specification (address 2) is a dict whose
attribute sev_xs references the list object at address 1. -/
def c1Heap : Heap := [(1, .arr [.num 10]), (2, .dict [("sev_xs", .ref 1)])]

/-- The heap after `safe_lookup` returned the shallow copy at the fresh
address 3: the copy shares the nested list at address 1 with the stored
specification. -/
def c1Heap2 : Heap := (3, .dict [("sev_xs", .ref 1)]) :: c1Heap

/-- A store where the name Y exists only under kind port. -/
def c3Store : Knowledge Nat := [(("port", "Y"), ⟨5, "port Y"⟩)]

/-- The heap backing `c3Store`. -/
def c3Heap : Heap := [(5, .dict [])]

/-- Externals whose update fails with `ZeroDivisionError` for the object
named P and with `AttributeError` for every other object. -/
def c4Ex : Externals :=
  ⟨fun name _ _ => if name = "P" then .error .zeroDiv else .error .attr,
    fun _ _ => 1, fun _ _ => 1, fun b => b, fun _ => 0⟩

/-- A constructed portfolio answer named P. -/
def c4Port : Answer := ⟨"port", "P", [], "port P", some (.portfolio "P" [] "port P")⟩

/-- A constructed aggregate answer named A. -/
def c4Agg : Answer := ⟨"agg", "A", [], "agg A", some (.aggregate [] "agg A")⟩

/-- A constructed aggregate answer named B. -/
def c4AggB : Answer := ⟨"agg", "B", [], "agg B", some (.aggregate [] "agg B")⟩

/-- A constructed portfolio answer, first in the result list of C5. -/
def c5Port : Answer := ⟨"port", "P", [], "port P", some (.portfolio "P" [] "port P")⟩

/-- A constructed severity answer, last in the result list of C5. -/
def c5Sev : Answer := ⟨"sev", "S", [], "sev S", some (.severity [] "sev S")⟩

/-- The result list of C5: exactly one portfolio, and it is not last. -/
def c5Rv : List Answer := [c5Port, c5Sev]

/-- The specification of a fixed-frequency aggregate with discrete severity
outcomes 10, 20, 30 and expected count 5. -/
def c6Spec : Spec := [("sev_name", .str "dhistogram"), ("freq_name", .str "fixed"),
  ("sev_xs", .nums [10, 20, 30]), ("exp_en", .num 5)]

/-- The constructed aggregate answer over `c6Spec`. -/
def c6Ans : Answer := ⟨"agg", "A", c6Spec, "agg A", some (.aggregate c6Spec "agg A")⟩

/-- A severity answer whose specification carries the mixture weight one
half. -/
def c7Ans : Answer := ⟨"sev", "M", [("sev_wt", .num half)], "sev M", none⟩

/-- An answer of an unrecognized kind. -/
def c8Ans : Answer := ⟨"expr", "x", [], "2 + 2", none⟩

/-- A store holding the name X under the two kinds sev and agg. -/
def c9Store : Knowledge Nat := [(("sev", "X"), ⟨7, "p1"⟩), (("agg", "X"), ⟨8, "p2"⟩)]

/- ----------------------------------------------------------------------- -/
/- Helper lemmas.                                                          -/
/- ----------------------------------------------------------------------- -/

theorem le_foldr_max {l : List Nat} {b : Nat} (hb : b ∈ l) : b ≤ l.foldr max 0 := by
  induction l with
  | nil => cases hb
  | cons x t ih =>
    rcases List.mem_cons.mp hb with rfl | hb2
    · exact le_max_left _ _
    · exact (ih hb2).trans (le_max_right _ _)

theorem heapLookup_of_forall_lt (h : Heap) (a : Nat)
    (ha : ∀ b ∈ h.map Prod.fst, b < a) : heapLookup h a = none := by
  induction h with
  | nil => rfl
  | cons e t ih =>
    obtain ⟨b, o⟩ := e
    have hb : b < a := ha b (by simp)
    simp only [heapLookup]
    rw [if_neg (by omega)]
    exact ih (fun c hc => ha c (by simp [hc]))

theorem heapLookup_fresh (h : Heap) : heapLookup h (heapFresh h) = none :=
  heapLookup_of_forall_lt h _ (fun b hb => by
    have := le_foldr_max hb
    simp only [heapFresh]
    omega)

theorem heapLookup_dictSet_ne (h : Heap) (a b : Nat) (k : String) (v : PyVal)
    (hne : b ≠ a) : heapLookup (dictSet h a k v) b = heapLookup h b := by
  induction h with
  | nil => rfl
  | cons e t ih =>
    obtain ⟨c, o⟩ := e
    by_cases hc : c = a
    · subst hc
      simp only [dictSet, if_pos rfl, heapLookup]
      rw [if_neg (by omega), if_neg (by omega)]
      exact ih
    · simp only [dictSet, if_neg hc, heapLookup]
      by_cases hbc : b = c
      · rw [if_pos hbc, if_pos hbc]
      · rw [if_neg hbc, if_neg hbc]
        exact ih

theorem bitLenAux_lt (fuel m : Nat) (h : m ≤ fuel) : m < 2 ^ bitLenAux fuel m := by
  induction fuel generalizing m with
  | zero =>
    have : m = 0 := by omega
    subst this
    simp [bitLenAux]
  | succ fuel ih =>
    match m with
    | 0 => simp [bitLenAux]
    | m + 1 =>
      have hh : (m + 1) / 2 ≤ fuel := by omega
      have hlt := ih ((m + 1) / 2) hh
      simp only [bitLenAux]
      rw [pow_succ]
      omega

theorem lt_two_pow_bitLen (m : Nat) : m < 2 ^ bitLen m :=
  bitLenAux_lt m m le_rfl

theorem two_mul_lt_two_pow (m : Nat) : 2 * m < 2 ^ (pyBinLen m - 1) := by
  cases m with
  | zero => decide
  | succ k =>
    have h := lt_two_pow_bitLen (k + 1)
    have hb : pyBinLen (k + 1) - 1 = bitLen (k + 1) + 1 := by simp [pyBinLen]
    rw [hb, pow_succ]
    omega

theorem get_exact_ok_mem {σ : Type} {store : Knowledge σ} {k n : String}
    {r : (String × String) × KRecord σ}
    (h : get_exact store k n = .ok r) :
    r ∈ store ∧ r.1.1 = k ∧ r.1.2 = n := by
  unfold get_exact at h
  cases hf : store.filter (fun e => e.1.1 == k && e.1.2 == n) with
  | nil =>
    rw [hf] at h
    have h' : (Except.error (UwErr.notFound k n) :
        Except UwErr ((String × String) × KRecord σ)) = .ok r := h
    cases h'
  | cons x xs =>
    cases xs with
    | nil =>
      rw [hf] at h
      have h' : (Except.ok x : Except UwErr ((String × String) × KRecord σ)) = .ok r := h
      injection h' with hxr
      subst hxr
      have hx : x ∈ store.filter (fun e => e.1.1 == k && e.1.2 == n) := by
        rw [hf]; exact List.mem_cons_self x []
      have hmem := List.mem_filter.mp hx
      refine ⟨hmem.1, ?_, ?_⟩
      · have hb := hmem.2
        simp only [Bool.and_eq_true, beq_iff_eq] at hb
        exact hb.1
      · have hb := hmem.2
        simp only [Bool.and_eq_true, beq_iff_eq] at hb
        exact hb.2
    | cons y ys =>
      rw [hf] at h
      have h' : (Except.error (UwErr.ambiguous n (x :: y :: ys).length) :
          Except UwErr ((String × String) × KRecord σ)) = .ok r := h
      cases h'

/- ----------------------------------------------------------------------- -/
/- Claim theorems.                                                         -/
/- ----------------------------------------------------------------------- -/

/-- C5 (code bug, evaluation at the failing input): among the two results
of `c5Rv` exactly one has kind port, and it is the FIRST one; the claim
(and the comment in the source) say `build` returns the portfolio, but the
collapsing code returns the object of the LAST loop variable — here the
severity object, not the portfolio. -/
theorem collapse_single_portfolio_returns_last :
    (c5Rv.filter (fun a => a.kind = "port")).length = 1 ∧
    c5Port.object = some (.portfolio "P" [] "port P") ∧
    collapse c5Rv = .oneObject (.severity [] "sev S") ∧
    collapse c5Rv ≠ .oneObject (.portfolio "P" [] "port P") := by
  refine ⟨rfl, rfl, rfl, ?_⟩
  intro hcontra
  rw [show collapse c5Rv = .oneObject (.severity [] "sev S") from rfl] at hcontra
  injection hcontra with h2
  exact Constructed.noConfusion h2

/-- C7: a severity answer whose specification carries a mixture weight
attribute `sev_wt` with a value other than 1 is declined by `factory`: the
constructed object stays absent, the decline is logged as a warning, and —
`factory` being total — no error is raised. -/
theorem factory_mixture_declined
    (answer : Answer) (w : Value)
    (hkind : answer.kind = "sev")
    (hw : specLookup answer.spec "sev_wt" = some w)
    (hw1 : isOne w = false) :
    (factory answer).1.object = none ∧
    LogMsg.mixedSevNotCreated ∈ (factory answer).2 := by
  obtain ⟨k, nm, sp, pr, ob⟩ := answer
  simp only at hkind hw
  subst hkind
  simp only [factory]
  rw [hw]
  simp [hw1]

/-- C7 witness: the severity answer `c7Ans` carries mixture weight one
half; `factory` declines it with a warning. -/
theorem factory_mixture_declined_witness :
    specLookup c7Ans.spec "sev_wt" = some (.num half) ∧
    isOne (.num half) = false ∧
    (factory c7Ans).1.object = none ∧
    LogMsg.mixedSevNotCreated ∈ (factory c7Ans).2 :=
  ⟨rfl, by decide,
    (factory_mixture_declined c7Ans (.num half) rfl rfl (by decide)).1,
    (factory_mixture_declined c7Ans (.num half) rfl rfl (by decide)).2⟩

/-- C8 (code bug, evaluation at the failing input): `c8Ans` has the
unrecognized kind expr, yet `factory` returns it unchanged — no object, no
log, and no error, because the ValueError the source builds in this branch
is never raised. The claim (and the spec) say the factory fails with
UnsupportedKind rather than returning normally. -/
theorem factory_unsupported_kind_returns_normally :
    c8Ans.kind ∉ (["agg", "port", "sev", "distortion"] : List String) ∧
    factory c8Ans = (c8Ans, []) ∧
    (factory c8Ans).1.object = none :=
  ⟨by decide, rfl, rfl⟩

/-- C9: when a name is stored under two different kinds, the bare-name
lookup `get_by_name` fails with Ambiguous (the engine does not pick a
preferred kind), while the exact lookup `get_exact` with one of the stored
kinds still succeeds and returns that record. -/
theorem get_by_name_ambiguous_get_exact_ok {σ : Type}
    (store : Knowledge σ) (k1 k2 n : String) (r1 r2 : KRecord σ)
    (h1 : get_exact store k1 n = .ok ((k1, n), r1))
    (h2 : get_exact store k2 n = .ok ((k2, n), r2))
    (hk : k1 ≠ k2) :
    (∃ m, get_by_name store n = .error (.ambiguous n m)) ∧
    get_exact store k1 n = .ok ((k1, n), r1) := by
  refine ⟨?_, h1⟩
  have m1 : ((k1, n), r1) ∈ store := (get_exact_ok_mem h1).1
  have m2 : ((k2, n), r2) ∈ store := (get_exact_ok_mem h2).1
  have f1 : ((k1, n), r1) ∈ store.filter (fun e => e.1.2 == n) :=
    List.mem_filter.mpr ⟨m1, by simp⟩
  have f2 : ((k2, n), r2) ∈ store.filter (fun e => e.1.2 == n) :=
    List.mem_filter.mpr ⟨m2, by simp⟩
  have hne : ((k1, n), r1) ≠ ((k2, n), r2) := by
    intro hcontra
    exact hk (congrArg (fun p => p.1.1) hcontra)
  unfold get_by_name
  cases hf : store.filter (fun e => e.1.2 == n) with
  | nil => rw [hf] at f1; cases f1
  | cons x xs =>
    cases xs with
    | nil =>
      rw [hf] at f1 f2
      have e1 : ((k1, n), r1) = x := by simpa using f1
      have e2 : ((k2, n), r2) = x := by simpa using f2
      exact absurd (e1.trans e2.symm) hne
    | cons y ys =>
      exact ⟨(x :: y :: ys).length, rfl⟩

/-- C9 witness: in `c9Store` the name X is stored under both sev and agg;
the bare-name lookup is ambiguous while the exact lookup under sev still
returns the sev record. -/
theorem get_by_name_ambiguous_get_exact_ok_witness :
    (∃ m, get_by_name c9Store "X" = .error (.ambiguous "X" m)) ∧
    get_exact c9Store "sev" "X" = .ok (("sev", "X"), ⟨7, "p1"⟩) :=
  get_by_name_ambiguous_get_exact_ok c9Store "sev" "agg" "X" ⟨7, "p1"⟩ ⟨8, "p2"⟩
    rfl rfl (by decide)

/-- C2: when the statement `bad` fails to parse, the interpreter raises
exactly there: the error surfaces, only the statements up to and including
`bad` were ever handed to the parser (nothing after it is parsed), and the
knowledge store and answers are exactly those of a run over the successful
prefix alone — partial progress is kept, not rolled back. -/
theorem interpret_program_fail_fast
    (parse : String → Except ParseErr (String × String × Spec))
    (store : Knowledge Spec) (pre post : List String) (bad : String) (e : ParseErr)
    (hok : ∀ l ∈ pre, isOkE (parse l) = true)
    (hbad : parse bad = .error e) :
    (interpret_program parse store (pre ++ bad :: post)).err = some e ∧
    (interpret_program parse store (pre ++ bad :: post)).parsed = pre ++ [bad] ∧
    (interpret_program parse store (pre ++ bad :: post)).store =
      (interpret_program parse store pre).store ∧
    (interpret_program parse store (pre ++ bad :: post)).answers =
      (interpret_program parse store pre).answers := by
  induction pre generalizing store with
  | nil =>
    simp [interpret_program, hbad]
  | cons l rest ih =>
    have hl : isOkE (parse l) = true := hok l (List.mem_cons_self l rest)
    cases hp : parse l with
    | error e2 =>
      rw [hp] at hl
      simp [isOkE] at hl
    | ok v =>
      obtain ⟨kind, name, spec⟩ := v
      have ih2 := ih (insertRec store kind name ⟨spec, l⟩)
        (fun x hx => hok x (List.mem_cons_of_mem l hx))
      simp only [List.cons_append, interpret_program, hp]
      exact ⟨ih2.1, congrArg (List.cons l) ih2.2.1, ih2.2.2.1,
        congrArg (List.cons ⟨kind, name, spec, l, none⟩) ih2.2.2.2⟩

/-- C2 witness: a three-statement program whose second statement is the one
`demoParse` rejects; interpretation raises there, keeps the entry of the
first statement, and never parses the third. -/
theorem interpret_program_fail_fast_witness :
    (∀ l ∈ ["sev A dsev"], isOkE (demoParse l) = true) ∧
    demoParse "bad statement" = .error (.tokenErr "NAME" "bad" 0) ∧
    ((interpret_program demoParse [] (["sev A dsev"] ++ "bad statement" :: ["sev C dsev"])).err =
        some (.tokenErr "NAME" "bad" 0) ∧
      (interpret_program demoParse [] (["sev A dsev"] ++ "bad statement" :: ["sev C dsev"])).parsed =
        ["sev A dsev"] ++ ["bad statement"] ∧
      (interpret_program demoParse [] (["sev A dsev"] ++ "bad statement" :: ["sev C dsev"])).store =
        (interpret_program demoParse [] ["sev A dsev"]).store ∧
      (interpret_program demoParse [] (["sev A dsev"] ++ "bad statement" :: ["sev C dsev"])).answers =
        (interpret_program demoParse [] ["sev A dsev"]).answers) :=
  ⟨by decide, rfl,
    interpret_program_fail_fast demoParse [] ["sev A dsev"] ["sev C dsev"]
      "bad statement" (.tokenErr "NAME" "bad" 0) (by decide) rfl⟩

/-- C10: when the input is not a stored bare name and the preprocessor
reduces the program text to no statements at all, `build` returns `none` —
not an empty sequence and not an error — after logging the no-output
warning, and the store is untouched. -/
theorem build_no_output_returns_none
    (pre : String → List String)
    (parse : String → Except ParseErr (String × String × Spec))
    (ex : Externals) (dfltLog2 : Int) (store : Knowledge Spec) (program : String)
    (update : Bool) (log2 : Int) (bs : ℚ)
    (hlook : isOkE (get_by_name store program) = false)
    (hpre : pre program = []) :
    build pre parse ex dfltLog2 store program update log2 bs =
      ⟨store, .ok none, [.buildNoOutput]⟩ := by
  cases hl : get_by_name store program with
  | ok r =>
    rw [hl] at hlook
    simp [isOkE] at hlook
  | error err =>
    simp [build, write, hl, hpre, interpret_program, writeLoop]

/-- C10 witness: the empty store knows no name, and the preprocessor turns
the blank program into no statements; `build` returns `none` with the
warning. -/
theorem build_no_output_returns_none_witness :
    build (fun _ => []) demoParse demoExts 16 [] "   " true 0 0 =
      ⟨[], .ok none, [.buildNoOutput]⟩ :=
  build_no_output_returns_none (fun _ => []) demoParse demoExts 16 [] "   "
    true 0 0 rfl rfl

/-- C4 (counterexample): the portfolio named P fails its update with a
ZeroDivisionError; contrary to the claim, the failure is NOT caught for a
Portfolio — the whole build loop aborts with the error and the following
aggregate is never processed. -/
theorem portfolio_update_failure_aborts :
    buildLoop c4Ex 16 true 5 2 [c4Port, c4Agg] = .error .zeroDiv ∧
    c4Ex.upd c4Port.name 5 2 = .error .zeroDiv :=
  ⟨rfl, rfl⟩

/-- C4 (amended): only for Aggregate objects is the update failure caught:
when the update of an aggregate answer fails with ZeroDivisionError or
AttributeError, the loop records the caught failure and continues with the
remaining answers exactly as if the failing object had succeeded. -/
theorem aggregate_update_failure_continues
    (ex : Externals) (dfltLog2 log2 : Int) (bs : ℚ)
    (a : Answer) (rest : List Answer) (d : Spec) (prog : String) (e : UpdErr)
    (hobj : a.object = some (.aggregate d prog))
    (hfail : ex.upd a.name (aggParams ex dfltLog2 log2 bs a.name d).1
        (aggParams ex dfltLog2 log2 bs a.name d).2 = .error e)
    (he : e = .zeroDiv ∨ e = .attr) :
    buildLoop ex dfltLog2 true log2 bs (a :: rest) =
      (buildLoop ex dfltLog2 true log2 bs rest).map
        (fun rs => ⟨a.kind, a.name, (aggParams ex dfltLog2 log2 bs a.name d).1,
          (aggParams ex dfltLog2 log2 bs a.name d).2, caughtOutcome e⟩ :: rs) := by
  rcases he with rfl | rfl <;>
  · simp only [buildLoop, hobj, if_true, hfail]
    cases hr : buildLoop ex dfltLog2 true log2 bs rest <;>
      simp [Except.map, caughtOutcome]

/-- C4 witness: the aggregate named B fails its update with an
AttributeError under `c4Ex`; the loop catches it, records it, and finishes
normally. -/
theorem aggregate_update_failure_continues_witness :
    buildLoop c4Ex 16 true 5 2 [c4AggB] = .ok [⟨"agg", "B", 5, 2, .caughtAttr⟩] := by
  rw [aggregate_update_failure_continues c4Ex 16 5 2 c4AggB [] [] "agg B" .attr
    rfl rfl (Or.inr rfl)]
  rfl

/-- C6 (counterexample): for the fixed-frequency discrete aggregate with
severity outcomes 10, 20, 30 and expected count 5 the estimated upper
bound is 150, whose smallest covering exponent is 8 (256 is at least 150
while 128 is not) — but the code computes `len(bin(int(150))) - 1 = 9`,
so the inferred resolution exponent is 9, not the 8 the claim states. The
inferred bucket width is 1 as claimed. -/
theorem discrete_inference_counterexample :
    buildLoop demoExts 16 true 0 0 [c6Ans] = .ok [⟨"agg", "A", 9, 1, .updated⟩] ∧
    150 ≤ 2 ^ 8 ∧ 2 ^ 7 < 150 ∧ (9 : Int) ≠ 8 := by
  have hml : maxLossEstimate demoExts c6Spec = 150 := by
    have h1 : maxLossEstimate demoExts c6Spec = maxQ [10, 20, 30] * 5 := rfl
    rw [h1]
    norm_num [maxQ, max_def]
  have hp : aggParams demoExts 16 0 0 "A" c6Spec = (9, 1) := by
    simp only [aggParams, hml]
    decide
  refine ⟨?_, by norm_num, by norm_num, by decide⟩
  simp only [buildLoop, c6Ans, hp]
  rfl

/-- C6 (amended): with a dhistogram severity and no caller log2 override,
build infers bucket width 1 and a resolution exponent of
`len(bin(int(max_loss))) - 1` — one more than the bit length of the
truncated estimate — so the number of buckets exceeds TWICE the estimated
upper bound; it is not the smallest exponent covering the estimate. -/
theorem discrete_inference_amended
    (ex : Externals) (dfltLog2 : Int) (bs : ℚ) (name : String) (d : Spec)
    (hd : getStr d "sev_name" = some "dhistogram") :
    aggParams ex dfltLog2 0 bs name d =
      (((pyBinLen (⌊maxLossEstimate ex d⌋).toNat - 1 : Nat) : Int), 1) ∧
    2 * (⌊maxLossEstimate ex d⌋).toNat <
      2 ^ (pyBinLen (⌊maxLossEstimate ex d⌋).toNat - 1) := by
  constructor
  · simp [aggParams, hd]
  · exact two_mul_lt_two_pow _

/-- C6 amended witness: the concrete discrete aggregate of `c6Spec`. -/
theorem discrete_inference_amended_witness :
    aggParams demoExts 16 0 0 "A" c6Spec =
      (((pyBinLen (⌊maxLossEstimate demoExts c6Spec⌋).toNat - 1 : Nat) : Int), 1) ∧
    2 * (⌊maxLossEstimate demoExts c6Spec⌋).toNat <
      2 ^ (pyBinLen (⌊maxLossEstimate demoExts c6Spec⌋).toNat - 1) :=
  discrete_inference_amended demoExts 16 0 "A" c6Spec rfl

/-- C1 (counterexample): `safe_lookup` returns a SHALLOW copy, not a deep
one. The stored specification (address 2) holds its attribute sev_xs as a
reference to the list at address 1; the copy (fresh address 3) shares that
reference. Mutating the nested list through the returned copy changes what
a subsequent `get_exact` observes: the stored specification now reaches
999 where it used to reach 10 — the stored record is NOT isolated from
nested mutation of the resolved value. -/
theorem resolve_not_deep_copy_counterexample :
    safe_lookup c1Store c1Heap "sev.X" = .ok (3, c1Heap2) ∧
    heapLookup c1Heap2 3 = some (.dict [("sev_xs", .ref 1)]) ∧
    get_exact c1Store "sev" "X" = .ok (("sev", "X"), ⟨2, "sev X dsev"⟩) ∧
    heapLookup c1Heap 1 = some (.arr [.num 10]) ∧
    heapLookup (arrSet c1Heap2 1 0 (.num 999)) 2 = some (.dict [("sev_xs", .ref 1)]) ∧
    heapLookup (arrSet c1Heap2 1 0 (.num 999)) 1 = some (.arr [.num 999]) ∧
    PyObj.arr [.num 999] ≠ PyObj.arr [.num 10] :=
  ⟨rfl, rfl, rfl, rfl, rfl, rfl, by decide⟩

/-- C1 (amended): the copy isolation `safe_lookup` does provide is at the
top level: the copy lives at a fresh address, so rebinding any attribute of
the returned dict leaves every stored specification object — in particular
the one `get_exact` returns — untouched. -/
theorem resolve_shallow_copy_top_isolation
    (store : Knowledge Nat) (h : Heap) (ref : String) (a2 : Nat) (h2 : Heap)
    (k n key : String) (rec : KRecord Nat) (v : PyVal)
    (hok : safe_lookup store h ref = .ok (a2, h2))
    (_hrec : get_exact store k n = .ok ((k, n), rec))
    (hdom : (heapLookup h rec.spec).isSome = true) :
    heapLookup (dictSet h2 a2 key v) rec.spec = heapLookup h rec.spec := by
  have hne : rec.spec ≠ heapFresh h := by
    intro he
    rw [he, heapLookup_fresh] at hdom
    simp at hdom
  unfold safe_lookup at hok
  repeat' split at hok
  all_goals simp only [Except.ok.injEq, Except.error.injEq, Prod.mk.injEq,
    reduceCtorEq] at hok
  obtain ⟨rfl, rfl⟩ := hok
  simp only [dictSet, if_pos rfl, heapLookup]
  rw [if_neg hne]
  exact heapLookup_dictSet_ne h _ _ key v hne

/-- C1 amended witness: resolving sev.X over `c1Heap` yields the copy at
address 3; rebinding its attribute sev_xs leaves the stored specification
at address 2 unchanged. -/
theorem resolve_shallow_copy_top_isolation_witness :
    safe_lookup c1Store c1Heap "sev.X" = .ok (3, c1Heap2) ∧
    heapLookup (dictSet c1Heap2 3 "sev_xs" (.num 0)) 2 = heapLookup c1Heap 2 :=
  ⟨rfl, resolve_shallow_copy_top_isolation c1Store c1Heap "sev.X" 3 c1Heap2
    "sev" "X" "sev_xs" ⟨2, "sev X dsev"⟩ (.num 0) rfl rfl rfl⟩

/-- C3 (counterexample): the name Y is stored only under kind port; the
reference agg.Y fails — but with NotFound (the exact tuple lookup misses),
not with the KindMismatch the claim states: the `found_kind != kind` check
of the source sits behind an exact `(kind, name)` lookup and cannot fire. -/
theorem resolve_wrong_kind_not_kindmismatch :
    safe_lookup c3Store c3Heap "agg.Y" = .error (.notFound "agg" "Y") ∧
    isKindMismatchE (safe_lookup c3Store c3Heap "agg.Y") = false ∧
    get_exact c3Store "port" "Y" = .ok (("port", "Y"), ⟨5, "port Y"⟩) :=
  ⟨rfl, rfl, rfl⟩

/-- C3 (amended): when the name of a well-formed reference is stored only
under kinds other than the requested one, `safe_lookup` fails with
NotFound — it never silently substitutes the record of another kind. -/
theorem resolve_other_kind_notfound
    (store : Knowledge Nat) (h : Heap) (ref k n : String)
    (hs : splitDot ref = [k, n])
    (honly : ∀ e ∈ store, e.1.2 = n → e.1.1 ≠ k) :
    safe_lookup store h ref = .error (.notFound k n) := by
  have hfilter : store.filter (fun e => e.1.1 == k && e.1.2 == n) = [] := by
    rw [List.filter_eq_nil_iff]
    intro e he
    simp only [Bool.and_eq_true, beq_iff_eq, not_and]
    intro hk1 hn1
    exact honly e he hn1 hk1
  have hge : get_exact store k n = .error (.notFound k n) := by
    unfold get_exact
    rw [hfilter]
  unfold safe_lookup
  split
  · rename_i kind name heq
    rw [hs] at heq
    injection heq with h1 h2
    injection h2 with h2 h3
    subst h1
    subst h2
    split
    · rfl
    · rename_i pr heq2
      rw [hge] at heq2
      exact absurd heq2 (by simp)
  · rename_i hne2
    exact absurd (hs ▸ rfl) (hne2 k n)

/-- C3 amended witness: over the concrete store where Y exists only under
port, the reference agg.Y fails with NotFound. -/
theorem resolve_other_kind_notfound_witness :
    splitDot "agg.Y" = ["agg", "Y"] ∧
    (∀ e ∈ c3Store, e.1.2 = "Y" → e.1.1 ≠ "agg") ∧
    safe_lookup c3Store c3Heap "agg.Y" = .error (.notFound "agg" "Y") :=
  ⟨rfl, by decide,
    resolve_other_kind_notfound c3Store c3Heap "agg.Y" "agg" "Y" rfl (by decide)⟩
